import Mathlib

/-!
Verification of the scattergories host-authoritative game core.

Shallow embedding of the source modules:
  * `js/game/round.js`    : letter selection and answer normalization
  * `js/game/scoring.js`  : net votes, validity, points, round results
  * `js/state/game-state.js` : the phase state machine
  * `js/state/store.js`   : the relevant parts of the shared state shape
  * `js/network/host.js`  : vote handling, settings clamping, round start,
                            join handling

JavaScript strings are modelled as lists of characters (`JStr`); objects
used as string-keyed or index-keyed dictionaries are modelled as functions
into `Option`; `Math.random`-driven choices are passed in as explicit
choice functions.
-/

namespace Scattergories

/-- JavaScript strings, modelled as lists of characters. -/
abbrev JStr := List Char

/-- Whitespace as recognised by `String.prototype.trim` (ASCII part). -/
def isSpaceChar (c : Char) : Bool :=
  c = ' ' || c = '\t' || c = '\n' || c = '\r' || c = '\x0b' || c = '\x0c'

/-- Model of `s.toLowerCase()` (ASCII letters; `Char.toLower` mirrors the
behaviour of JavaScript on the basic latin range). -/
def jsToLower (s : JStr) : JStr := s.map Char.toLower

/-- Model of `s.trim()`: drop whitespace from the front, then from the end. -/
def jsTrim (s : JStr) : JStr :=
  List.rdropWhile isSpaceChar (List.dropWhile isSpaceChar s)

/-- The determiner `"a "` from `round.js` `normalizeAnswer`. -/
def detA : JStr := ['a', ' ']

/-- The determiner `"an "`. -/
def detAn : JStr := ['a', 'n', ' ']

/-- The determiner `"the "`. -/
def detThe : JStr := ['t', 'h', 'e', ' ']

/-- The prefix-stripping loop of `normalizeAnswer`: try `"a "`, `"an "`,
`"the "` in order, strip the first that matches (`startsWith` / `slice`),
and stop (the loop `break`s after one strip). -/
def stripDeterminer (s : JStr) : JStr :=
  if s.take 2 = detA then s.drop 2
  else if s.take 3 = detAn then s.drop 3
  else if s.take 4 = detThe then s.drop 4
  else s

/-- `round.js` `normalizeAnswer`: empty for null/empty input, otherwise
lowercase, trim, strip one leading determiner, trim again. -/
def normalizeAnswer (answer : JStr) : JStr :=
  if answer = [] then []
  else jsTrim (stripDeterminer (jsTrim (jsToLower answer)))

/-- `round.js` `startsWithLetter`: the normalized answer is non-empty and its
first character equals the letter, case-insensitively. -/
def startsWithLetter (answer : JStr) (letter : Char) : Bool :=
  match normalizeAnswer answer with
  | [] => false
  | c :: _ => c.toUpper = letter.toUpper

/-- `round.js` `areAnswersDuplicate`. -/
def areAnswersDuplicate (answer1 answer2 : JStr) : Bool :=
  normalizeAnswer answer1 = normalizeAnswer answer2

/-- `round.js` `groupDuplicateAnswers`: fold a `playerId -> answer` map
(entries in iteration order) into a `normalized -> playerIds` map, skipping
blank answers. -/
def groupDuplicateAnswers (answers : List (JStr × JStr)) : JStr → List JStr :=
  answers.foldl
    (fun groups pa =>
      if jsTrim pa.2 = [] then groups
      else fun n =>
        if n = normalizeAnswer pa.2 then groups n ++ [pa.1] else groups n)
    (fun _ => [])

/-- `config.js` `AVAILABLE_LETTERS`: the alphabet `ABCDEFGHIJKLMNOPRSTUVWY`
(Q, X, Z excluded). -/
def AVAILABLE_LETTERS : List Char :=
  ['A', 'B', 'C', 'D', 'E', 'F', 'G', 'H', 'I', 'J', 'K', 'L', 'M',
   'N', 'O', 'P', 'R', 'S', 'T', 'U', 'V', 'W', 'Y']

/-- `round.js` `selectLetter`: filter out used letters and pick randomly from
what remains; when everything has been used, pick randomly from the full
alphabet. The random pick `arr[Math.floor(Math.random() * arr.length)]` is
modelled by the choice function `choose`, constrained in the theorems to
return an element of a non-empty argument. -/
def selectLetter (usedLetters : List Char) (choose : List Char → Char) : Char :=
  let available := AVAILABLE_LETTERS.filter (fun l => !usedLetters.contains l)
  if available.isEmpty then choose AVAILABLE_LETTERS
  else choose available

/-! ## Phase state machine (`js/state/game-state.js`) -/

/-- The `PHASES` enumeration. -/
inductive Phase
  | HOME
  | LOBBY
  | ANSWERING
  | VOTING
  | RESULTS
  | GAME_OVER
deriving DecidableEq, Fintype

/-- The `TRANSITIONS` table of `game-state.js`. -/
def TRANSITIONS : Phase → List Phase
  | Phase.HOME => [Phase.LOBBY]
  | Phase.LOBBY => [Phase.ANSWERING, Phase.HOME]
  | Phase.ANSWERING => [Phase.VOTING]
  | Phase.VOTING => [Phase.RESULTS]
  | Phase.RESULTS => [Phase.ANSWERING, Phase.GAME_OVER]
  | Phase.GAME_OVER => [Phase.LOBBY, Phase.HOME]

/-- `GameStateMachine.canTransition`. -/
def canTransition (current toPhase : Phase) : Bool :=
  (TRANSITIONS current).contains toPhase

/-- The string keys under which `transition` fires registered callbacks:
the exact edge key `from->to`, the `enter:to` key, the `exit:from` key. -/
inductive CallbackKey
  | edgeKey (fromPhase toPhase : Phase)
  | enterKey (phase : Phase)
  | exitKey (phase : Phase)
deriving DecidableEq

/-- The observable outcome of `GameStateMachine.transition`: the returned
boolean, the resulting `gamePhase` field of the store, and the callback keys
fired, in firing order. -/
structure TransitionResult where
  ok : Bool
  gamePhase : Phase
  fired : List CallbackKey
deriving DecidableEq

/-- `GameStateMachine.transition`: on an invalid edge, log and return false
with no store write and no callbacks; on a valid edge, set the store phase
and fire the edge, enter and exit callback groups in that order. -/
def transition (current toPhase : Phase) : TransitionResult :=
  if !canTransition current toPhase then
    { ok := false, gamePhase := current, fired := [] }
  else
    { ok := true
      gamePhase := toPhase
      fired := [CallbackKey.edgeKey current toPhase,
                CallbackKey.enterKey toPhase,
                CallbackKey.exitKey current] }

/-- `GameStateMachine.isPlaying`: phase is one of ANSWERING, VOTING, RESULTS. -/
def isPlaying (phase : Phase) : Bool :=
  [Phase.ANSWERING, Phase.VOTING, Phase.RESULTS].contains phase

/-! ## Votes (`js/network/host.js` `handleVote`) -/

/-- The `{ upvotes: [...], downvotes: [...] }` record kept per answer. -/
structure AnswerVotes where
  upvotes : List JStr
  downvotes : List JStr
deriving DecidableEq

/-- The record a missing key is initialised to. -/
def AnswerVotes.empty : AnswerVotes := { upvotes := [], downvotes := [] }

/-- The store `votes` object: `categoryIndex -> answerText -> AnswerVotes`,
with absent keys as `none`. -/
def Votes := Nat → JStr → Option AnswerVotes

/-- The initial empty `votes` object. -/
def initVotes : Votes := fun _ _ => none

/-- The vote type string `"up"`. -/
def voteUp : JStr := ['u', 'p']

/-- The vote type string `"down"`. -/
def voteDown : JStr := ['d', 'o', 'w', 'n']

/-- The vote type string `"none"`. -/
def voteNone : JStr := ['n', 'o', 'n', 'e']

/-- `Host.handleVote`: initialise the nested record if missing, remove the
voter from both lists, then append the voter to the list named by the vote
type (any other vote type, in particular `"none"`, only removes). -/
def handleVote (votes : Votes) (playerId : JStr) (categoryIndex : Nat)
    (answer : JStr) (voteType : JStr) : Votes :=
  let av := (votes categoryIndex answer).getD AnswerVotes.empty
  let up := av.upvotes.filter (fun id => id ≠ playerId)
  let down := av.downvotes.filter (fun id => id ≠ playerId)
  let newAv : AnswerVotes :=
    if voteType = voteUp then { upvotes := up ++ [playerId], downvotes := down }
    else if voteType = voteDown then { upvotes := up, downvotes := down ++ [playerId] }
    else { upvotes := up, downvotes := down }
  fun ci ans =>
    if ci = categoryIndex ∧ ans = answer then some newAv else votes ci ans

/-- One inbound VOTE message: the sender and its payload. -/
structure VoteEvent where
  playerId : JStr
  categoryIndex : Nat
  answer : JStr
  voteType : JStr

/-- The votes state after the host processes a sequence of VOTE messages
starting from the empty votes object. -/
def applyVotes (events : List VoteEvent) : Votes :=
  events.foldl
    (fun v e => handleVote v e.playerId e.categoryIndex e.answer e.voteType)
    initVotes

/-- The vote type of the last VOTE message a given voter sent for a given
category index and answer, if any. -/
def lastVoteType (events : List VoteEvent) (playerId : JStr) (categoryIndex : Nat)
    (answer : JStr) : Option JStr :=
  ((events.filter (fun e =>
      e.playerId == playerId && e.categoryIndex == categoryIndex
        && e.answer == answer)).getLast?).map VoteEvent.voteType

/-! ## Scoring engine (`js/game/scoring.js`) -/

/-- `config.js` `SCORING.MIN_NET_VOTES`. -/
def MIN_NET_VOTES : Int := 1

/-- `config.js` `SCORING.UNIQUE_ANSWER`. -/
def UNIQUE_ANSWER : Nat := 2

/-- `config.js` `SCORING.VALID_ANSWER`. -/
def VALID_ANSWER : Nat := 1

/-- `calculateNetVotes`: upvote count minus downvote count. -/
def calculateNetVotes (answerVotes : AnswerVotes) : Int :=
  (answerVotes.upvotes.length : Int) - (answerVotes.downvotes.length : Int)

/-- `isAnswerValid`: false for blank answers, false when the answer does not
start with the letter, otherwise net votes at least the minimum. The source
default `minNetVotes = SCORING.MIN_NET_VOTES` is passed explicitly. -/
def isAnswerValid (answer : JStr) (letter : Char) (netVotes minNetVotes : Int) : Bool :=
  if jsTrim answer = [] then false
  else if !startsWithLetter answer letter then false
  else netVotes ≥ minNetVotes

/-- `calculatePoints`: 0 when invalid, 2 when unique, 1 otherwise. -/
def calculatePoints (isUnique isValid : Bool) : Nat :=
  if !isValid then 0
  else if isUnique then UNIQUE_ANSWER else VALID_ANSWER

/-- One entry of a category result list in `calculateRoundResults`. -/
structure AnswerResult where
  playerId : JStr
  answer : JStr
  normalized : JStr
  netVotes : Int
  isValid : Bool
  isUnique : Bool
  points : Nat
  startsCorrect : Bool
deriving DecidableEq

/-- One entry of `categoryResults`. -/
structure CategoryResult where
  category : JStr
  answers : List AnswerResult
deriving DecidableEq

/-- The return value of `calculateRoundResults`. `playerScores` is the
`playerId -> points` object, with absent players as `none`. -/
structure RoundResults where
  categoryResults : List CategoryResult
  playerScores : JStr → Option Nat

/-- The `answers` store object: `playerId -> (categoryIndex -> raw answer)`,
entries in iteration order. -/
def AnswersMap := List (JStr × (Nat → Option JStr))

/-- The `answersByPlayer` collection step of `calculateRoundResults`: keep
each player whose answer at this category index is present and non-blank,
paired with the trimmed answer. -/
def collectAnswers (answers : AnswersMap) (categoryIndex : Nat) :
    List (JStr × JStr) :=
  answers.filterMap (fun pa =>
    match pa.2 categoryIndex with
    | some a => if jsTrim a = [] then none else some (pa.1, jsTrim a)
    | none => none)

/-- The body of the per-player loop in `calculateRoundResults`: votes are
looked up in `votes[categoryIndex][answer]` under the trimmed raw answer
(missing entries default to empty), validity uses `isAnswerValid`,
uniqueness uses the duplicate group size (`|| 1` for a missing group), and
points use `calculatePoints`. -/
def scoreAnswer (votes : Votes) (letter : Char) (groups : JStr → List JStr)
    (categoryIndex : Nat) (pa : JStr × JStr) : AnswerResult :=
  let answer := pa.2
  let normalized := normalizeAnswer answer
  let answerVotes := (votes categoryIndex answer).getD AnswerVotes.empty
  let netVotes := calculateNetVotes answerVotes
  let startsCorrect := startsWithLetter answer letter
  let isValid := isAnswerValid answer letter netVotes MIN_NET_VOTES
  let groupSize := (groups normalized).length
  let duplicateCount := if groupSize = 0 then 1 else groupSize
  let isUnique := duplicateCount = 1
  let points := calculatePoints isUnique isValid
  { playerId := pa.1, answer := answer, normalized := normalized,
    netVotes := netVotes, isValid := isValid, isUnique := isUnique,
    points := points, startsCorrect := startsCorrect }

/-- The sort comparator of `calculateRoundResults` as a `le` relation:
`a` may come before `b` when the comparator gives a non-positive value
(valid entries first, then higher net votes first). -/
def answerLE (a b : AnswerResult) : Bool :=
  if a.isValid ≠ b.isValid then a.isValid else b.netVotes ≤ a.netVotes

/-- The unsorted answer entry list built for one category. -/
def categoryAnswersFor (answers : AnswersMap) (votes : Votes) (letter : Char)
    (categoryIndex : Nat) : List AnswerResult :=
  let answersByPlayer := collectAnswers answers categoryIndex
  let groups := groupDuplicateAnswers answersByPlayer
  answersByPlayer.map (scoreAnswer votes letter groups categoryIndex)

/-- The `if (points > 0)` score accumulation of `calculateRoundResults`. -/
def addScore (scores : JStr → Option Nat) (playerId : JStr) (points : Nat) :
    JStr → Option Nat :=
  if points > 0 then
    fun q => if q = playerId then some ((scores playerId).getD 0 + points)
             else scores q
  else scores

/-- The `playerScores` accumulation over the entries of one category. -/
def accumulateScores (scores : JStr → Option Nat) (entries : List AnswerResult) :
    JStr → Option Nat :=
  entries.foldl (fun sc e => addScore sc e.playerId e.points) scores

/-- The per-category step of `calculateRoundResults`: build the entry list,
accumulate scores in entry order, sort the entries, append the category
result. -/
def roundResultsStep (answers : AnswersMap) (votes : Votes) (letter : Char)
    (acc : List CategoryResult × (JStr → Option Nat)) (ic : Nat × JStr) :
    List CategoryResult × (JStr → Option Nat) :=
  let categoryAnswers := categoryAnswersFor answers votes letter ic.1
  let scores := accumulateScores acc.2 categoryAnswers
  let sorted := categoryAnswers.mergeSort answerLE
  (acc.1 ++ [{ category := ic.2, answers := sorted }], scores)

/-- `calculateRoundResults`: iterate over the categories with their indices. -/
def calculateRoundResults (answers : AnswersMap) (votes : Votes)
    (categories : List JStr) (letter : Char) : RoundResults :=
  let res := (categories.enum).foldl (roundResultsStep answers votes letter)
    ([], fun _ => none)
  { categoryResults := res.1, playerScores := res.2 }

/-! ## Settings (`config.js` `SETTINGS`, `Host.updateSettings`) -/

/-- `SETTINGS.ROUNDS.MIN`. -/
def ROUNDS_MIN : Int := 1
/-- `SETTINGS.ROUNDS.MAX`. -/
def ROUNDS_MAX : Int := 10
/-- `SETTINGS.CATEGORIES.MIN`. -/
def CATEGORIES_MIN : Int := 6
/-- `SETTINGS.CATEGORIES.MAX`. -/
def CATEGORIES_MAX : Int := 12
/-- `SETTINGS.TIMER.MIN`. -/
def TIMER_MIN : Int := 60
/-- `SETTINGS.TIMER.MAX`. -/
def TIMER_MAX : Int := 300

/-- The settings key `"rounds"`. -/
def roundsKey : JStr := ['r', 'o', 'u', 'n', 'd', 's']

/-- The settings key `"categoriesPerRound"`. -/
def categoriesKey : JStr :=
  ['c', 'a', 't', 'e', 'g', 'o', 'r', 'i', 'e', 's',
   'P', 'e', 'r', 'R', 'o', 'u', 'n', 'd']

/-- The settings key `"timerSeconds"`. -/
def timerKey : JStr :=
  ['t', 'i', 'm', 'e', 'r', 'S', 'e', 'c', 'o', 'n', 'd', 's']

/-- The settings key `"votingTimerSeconds"` (used by the voting-timer control
of the lobby screen; `updateSettings` has no clamping case for it). -/
def votingTimerKey : JStr :=
  ['v', 'o', 't', 'i', 'n', 'g', 'T', 'i', 'm', 'e', 'r',
   'S', 'e', 'c', 'o', 'n', 'd', 's']

/-- The store `settings` object: arbitrary string keys, as the source writes
`settings[key] = value` for any key. -/
def SettingsMap := JStr → Option Int

/-- The initial `settings` of `store.js`: rounds 3, categoriesPerRound 12,
timerSeconds 180. -/
def initialSettings : SettingsMap := fun k =>
  if k = roundsKey then some 3
  else if k = categoriesKey then some 12
  else if k = timerKey then some 180
  else none

/-- `Host.updateSettings`: the switch clamps `rounds`, `categoriesPerRound`
and `timerSeconds` with `Math.max(MIN, Math.min(MAX, value))`; any other key
falls through the switch and is stored as given. -/
def updateSettings (settings : SettingsMap) (key : JStr) (value : Int) :
    SettingsMap :=
  let v :=
    if key = roundsKey then max ROUNDS_MIN (min ROUNDS_MAX value)
    else if key = categoriesKey then max CATEGORIES_MIN (min CATEGORIES_MAX value)
    else if key = timerKey then max TIMER_MIN (min TIMER_MAX value)
    else value
  fun k => if k = key then some v else settings k

/-! ## Host state and round start (`js/network/host.js`) -/

/-- `config.js` `MAX_PLAYERS`. -/
def MAX_PLAYERS : Nat := 8

/-- One entry of the store `players` array. -/
structure Player where
  id : JStr
  name : JStr
  isReady : Bool
  isHost : Bool
  score : Nat
deriving DecidableEq

/-- The numeric settings fields of the store in their initial shape. -/
structure Settings where
  rounds : Int
  categoriesPerRound : Int
  timerSeconds : Int
deriving DecidableEq

/-- The store fields touched by `Host.startRound`, plus the host instance
field `usedLetters`. -/
structure HostState where
  gamePhase : Phase
  currentRound : Nat
  currentLetter : Char
  usedLetters : List Char
  categories : List JStr
  players : List Player
  localPlayerReady : Bool
  settings : Settings
  answers : AnswersMap
  votes : Votes
  timerRemaining : Int
  timerRunning : Bool
  roundResults : RoundResults

/-- `Host.startRound`: increment the round, select a fresh letter and push it
onto `usedLetters`, pick categories (`getCategories`, modelled by the choice
function `pickCategories`), reset the ready flag of every player and of the local
player, clear `answers` and `votes`, reset the timer fields and
transition to ANSWERING. `roundResults` is not among the written fields. -/
def startRound (st : HostState) (choose : List Char → Char)
    (pickCategories : Int → List JStr) : HostState :=
  let currentRound := st.currentRound + 1
  let letter := selectLetter st.usedLetters choose
  let categories := pickCategories st.settings.categoriesPerRound
  let players := st.players.map (fun p => { p with isReady := false })
  let tr := transition st.gamePhase Phase.ANSWERING
  { st with
      gamePhase := tr.gamePhase
      currentRound := currentRound
      currentLetter := letter
      usedLetters := st.usedLetters ++ [letter]
      categories := categories
      players := players
      localPlayerReady := false
      answers := []
      votes := initVotes
      timerRemaining := st.settings.timerSeconds
      timerRunning := true }

/-! ## Join handling (`js/network/host.js` connection handler and
`handlePlayerJoin`, with the client sending PLAYER_JOIN right after its
connection opens) -/

/-- The `connection` event handler of `setupMessageHandlers`: it unicasts an
ERROR when the lobby is full or `gameState.isPlaying()` holds, and mutates
nothing. The returned boolean says whether an ERROR was sent. -/
def onConnection (players : List Player) (phase : Phase) : Bool :=
  if players.length ≥ MAX_PLAYERS then true
  else if isPlaying phase then true
  else false

/-- The update branch of `handlePlayerJoin` for an existing id (reconnect):
the first entry carrying the peer id gets the new name and a cleared ready
flag. -/
def joinUpdate : List Player → JStr → JStr → List Player
  | [], _, _ => []
  | p :: rest, peerId, name =>
    if p.id = peerId then { p with name := name, isReady := false } :: rest
    else p :: joinUpdate rest peerId name

/-- `Host.handlePlayerJoin`: update the existing entry, or append a fresh
non-host entry with score 0. No capacity or phase check happens here. -/
def handlePlayerJoin (players : List Player) (peerId name : JStr) : List Player :=
  if players.any (fun p => p.id == peerId) then joinUpdate players peerId name
  else players ++
    [{ id := peerId, name := name, isReady := false, isHost := false, score := 0 }]

/-- The outcome of one full join attempt. -/
structure JoinOutcome where
  errorSent : Bool
  players : List Player
deriving DecidableEq

/-- One join attempt as the host observes it: the `connection` event fires
(possibly answering with an ERROR), then the PLAYER_JOIN message of the peer is
processed by `handlePlayerJoin` (the client sends it unconditionally after
its connection opens, and the host does not close rejected connections). -/
def processJoinAttempt (players : List Player) (phase : Phase)
    (peerId name : JStr) : JoinOutcome :=
  { errorSent := onConnection players phase
    players := handlePlayerJoin players peerId name }

/-! ## Concrete sample inputs used by counterexamples and witnesses -/

/-- A deterministic instance of the random pick: the head of the list. -/
def chooseHead (l : List Char) : Char := l.headD 'A'

/-- A non-empty `roundResults` value left over from a previous round. -/
def sampleRoundResults : RoundResults :=
  { categoryResults := [{ category := ['o', 'l', 'd'], answers := [] }]
    playerScores := fun _ => none }

/-- A host state sitting in RESULTS with a non-empty `roundResults`. -/
def sampleHostState : HostState :=
  { gamePhase := Phase.RESULTS
    currentRound := 1
    currentLetter := 'A'
    usedLetters := ['A']
    categories := []
    players := [{ id := ['h'], name := ['H'], isReady := true, isHost := true,
                  score := 3 }]
    localPlayerReady := true
    settings := { rounds := 3, categoriesPerRound := 12, timerSeconds := 180 }
    answers := []
    votes := initVotes
    timerRemaining := 0
    timerRunning := false
    roundResults := sampleRoundResults }

/-- A lobby already holding `MAX_PLAYERS` players. -/
def eightPlayers : List Player :=
  [{ id := ['0'], name := ['0'], isReady := false, isHost := true, score := 0 },
   { id := ['1'], name := ['1'], isReady := false, isHost := false, score := 0 },
   { id := ['2'], name := ['2'], isReady := false, isHost := false, score := 0 },
   { id := ['3'], name := ['3'], isReady := false, isHost := false, score := 0 },
   { id := ['4'], name := ['4'], isReady := false, isHost := false, score := 0 },
   { id := ['5'], name := ['5'], isReady := false, isHost := false, score := 0 },
   { id := ['6'], name := ['6'], isReady := false, isHost := false, score := 0 },
   { id := ['7'], name := ['7'], isReady := false, isHost := false, score := 0 }]

/-- One player answering `"Cat"` in category 0. -/
def answersOne : AnswersMap :=
  [(['p', '1'], fun i => if i = 0 then some ['C', 'a', 't'] else none)]

/-- An upvote on `"Cat"` in category 0 from another player. -/
def votesOne : Votes := fun ci ans =>
  if ci = 0 ∧ ans = ['C', 'a', 't'] then
    some { upvotes := [['p', '2']], downvotes := [] }
  else none

/-- Two players answering `"Cat"` and `"cat"`: raw strings differ, the
normalized forms coincide. -/
def answersTwo : AnswersMap :=
  [(['p', '1'], fun i => if i = 0 then some ['C', 'a', 't'] else none),
   (['p', '2'], fun i => if i = 0 then some ['c', 'a', 't'] else none)]

/-- An upvote recorded under the raw text `"Cat"` only. -/
def votesTwo : Votes := fun ci ans =>
  if ci = 0 ∧ ans = ['C', 'a', 't'] then
    some { upvotes := [['p', '3']], downvotes := [] }
  else none

/-! # Theorems -/

/-- C1: `transition` succeeds exactly on the edges of the fixed table
HOME->LOBBY; LOBBY->ANSWERING/HOME; ANSWERING->VOTING; VOTING->RESULTS;
RESULTS->ANSWERING/GAME_OVER; GAME_OVER->LOBBY/HOME; on success it sets the
phase to the target and fires the edge, enter and exit callback groups in
order; on a non-edge (in particular RESULTS->LOBBY) it returns false, keeps
the phase, and fires nothing. The function is total, so it never throws. -/
theorem transition_matches_edge_table :
    ∀ c t : Phase,
      ((transition c t).ok = true ↔
        (c, t) ∈ [(Phase.HOME, Phase.LOBBY), (Phase.LOBBY, Phase.ANSWERING),
          (Phase.LOBBY, Phase.HOME), (Phase.ANSWERING, Phase.VOTING),
          (Phase.VOTING, Phase.RESULTS), (Phase.RESULTS, Phase.ANSWERING),
          (Phase.RESULTS, Phase.GAME_OVER), (Phase.GAME_OVER, Phase.LOBBY),
          (Phase.GAME_OVER, Phase.HOME)]) ∧
      ((transition c t).gamePhase = if (transition c t).ok = true then t else c) ∧
      ((transition c t).fired =
        if (transition c t).ok = true then
          [CallbackKey.edgeKey c t, CallbackKey.enterKey t, CallbackKey.exitKey c]
        else []) := by
  decide

/-- Removing a voter from a list removes every occurrence of the voter. -/
theorem count_filter_ne_self (l : List JStr) (x : JStr) :
    (l.filter (fun id => id ≠ x)).count x = 0 := by
  simp [List.count_eq_zero, List.mem_filter]

/-- Removing one voter keeps every occurrence of a different voter. -/
theorem count_filter_ne_of_ne (l : List JStr) (x y : JStr) (h : x ≠ y) :
    (l.filter (fun id => id ≠ y)).count x = l.count x := by
  rw [List.count_filter]
  simp [h]

/-- C8 counterexample: two successive `up` votes by the same voter on the
same answer do NOT cancel; after the second call the voter is still in the
upvote list (the removal is followed by a re-insertion whenever the vote
type is `up`). -/
theorem double_upvote_persists_cex :
    ['p', '1'] ∈
      ((handleVote (handleVote initVotes ['p', '1'] 0 ['C', 'a', 't'] voteUp)
          ['p', '1'] 0 ['C', 'a', 't'] voteUp 0 ['C', 'a', 't']).getD
        AnswerVotes.empty).upvotes := by
  decide

/-- C8 amended: `handleVote` is level-based, not a toggle. Upvoting twice
leaves the voter upvoted exactly once and not downvoted (toggling to `none`
is done by the voting screen, which sends vote type `none` on a repeated
click); a `none` vote removes the voter from both lists of the answer. -/
theorem handleVote_repeat_up_and_none (votes : Votes) (pid : JStr) (ci : Nat)
    (ans : JStr) :
    (((handleVote (handleVote votes pid ci ans voteUp) pid ci ans voteUp
          ci ans).getD AnswerVotes.empty).upvotes.count pid = 1 ∧
      ((handleVote (handleVote votes pid ci ans voteUp) pid ci ans voteUp
          ci ans).getD AnswerVotes.empty).downvotes.count pid = 0) ∧
    (((handleVote votes pid ci ans voteNone ci ans).getD
        AnswerVotes.empty).upvotes.count pid = 0 ∧
      ((handleVote votes pid ci ans voteNone ci ans).getD
        AnswerVotes.empty).downvotes.count pid = 0) := by
  have hnu : ¬(voteNone = voteUp) := by decide
  have hnd : ¬(voteNone = voteDown) := by decide
  simp [handleVote, hnu, hnd, List.count_append, count_filter_ne_self,
    List.count_eq_zero, List.mem_filter]

/-- C4 counterexample: a write to the `votingTimerSeconds` settings key is
stored exactly as requested — the `updateSettings` switch has no case for
it, so the value 99999 is not clamped to the timer range [60, 300]. -/
theorem votingTimer_not_clamped_cex :
    updateSettings initialSettings votingTimerKey 99999 votingTimerKey
      = some 99999 ∧
    ¬(TIMER_MIN ≤ (99999 : Int) ∧ (99999 : Int) ≤ TIMER_MAX) := by
  constructor
  · decide
  · decide

/-- C4 amended: only the three keys the switch names are clamped —
`rounds` to [1, 10], `categoriesPerRound` to [6, 12], `timerSeconds` to
[60, 300]. There is no voting-timer case: any other key (in particular
`votingTimerSeconds`, which the lobby screen writes) is stored unclamped. -/
theorem updateSettings_clamps_switch_keys (s : SettingsMap) (v : Int) :
    (∃ w, updateSettings s roundsKey v roundsKey = some w ∧
      ROUNDS_MIN ≤ w ∧ w ≤ ROUNDS_MAX) ∧
    (∃ w, updateSettings s categoriesKey v categoriesKey = some w ∧
      CATEGORIES_MIN ≤ w ∧ w ≤ CATEGORIES_MAX) ∧
    (∃ w, updateSettings s timerKey v timerKey = some w ∧
      TIMER_MIN ≤ w ∧ w ≤ TIMER_MAX) ∧
    (∀ k, k ≠ roundsKey → k ≠ categoriesKey → k ≠ timerKey →
      updateSettings s k v k = some v) := by
  refine ⟨⟨max ROUNDS_MIN (min ROUNDS_MAX v), ?_, ?_, ?_⟩,
    ⟨max CATEGORIES_MIN (min CATEGORIES_MAX v), ?_, ?_, ?_⟩,
    ⟨max TIMER_MIN (min TIMER_MAX v), ?_, ?_, ?_⟩, ?_⟩
  · simp [updateSettings]
  · exact le_max_left _ _
  · exact max_le (by decide) (min_le_left _ _)
  · have h1 : categoriesKey ≠ roundsKey := by decide
    simp [updateSettings, h1]
  · exact le_max_left _ _
  · exact max_le (by decide) (min_le_left _ _)
  · have h1 : timerKey ≠ roundsKey := by decide
    have h2 : timerKey ≠ categoriesKey := by decide
    simp [updateSettings, h1, h2]
  · exact le_max_left _ _
  · exact max_le (by decide) (min_le_left _ _)
  · intro k h1 h2 h3
    simp [updateSettings, h1, h2, h3]

/-- C3 counterexample: `startRound` leaves a stale, non-empty `roundResults`
from the previous round in place — the field is not among those written at
round start. -/
theorem startRound_keeps_roundResults_cex :
    (startRound sampleHostState chooseHead fun _ => []).roundResults.categoryResults
      = [{ category := ['o', 'l', 'd'], answers := [] }] ∧
    [({ category := ['o', 'l', 'd'], answers := [] } : CategoryResult)] ≠ [] := by
  exact ⟨rfl, by decide⟩

/-- C3 amended: at round start `answers` and `votes` are cleared, the
ready flag of every player and the local ready flag are reset, and `currentRound`
increments by exactly 1 — but `roundResults` is left unchanged (it is only
overwritten when the next voting phase ends). -/
theorem startRound_resets_round_state (st : HostState)
    (choose : List Char → Char) (pickCategories : Int → List JStr) :
    (startRound st choose pickCategories).answers = [] ∧
    (startRound st choose pickCategories).votes = initVotes ∧
    (∀ p ∈ (startRound st choose pickCategories).players, p.isReady = false) ∧
    (startRound st choose pickCategories).localPlayerReady = false ∧
    (startRound st choose pickCategories).currentRound = st.currentRound + 1 ∧
    (startRound st choose pickCategories).roundResults = st.roundResults := by
  refine ⟨rfl, rfl, ?_, rfl, rfl, rfl⟩
  intro p hp
  simp only [startRound, List.mem_map] at hp
  obtain ⟨q, _, rfl⟩ := hp
  rfl

/-- Updating an existing entry preserves the roster length. -/
theorem joinUpdate_length (l : List Player) (peerId name : JStr) :
    (joinUpdate l peerId name).length = l.length := by
  induction l with
  | nil => rfl
  | cons p rest ih =>
      by_cases h : p.id = peerId
      · simp [joinUpdate, h]
      · simp [joinUpdate, h, ih]

/-- After updating, some entry carries the peer id with the new name and a
cleared ready flag, provided the id was present. -/
theorem joinUpdate_mem (l : List Player) (peerId name : JStr)
    (h : l.any (fun p => p.id == peerId) = true) :
    ∃ p ∈ joinUpdate l peerId name,
      p.id = peerId ∧ p.name = name ∧ p.isReady = false := by
  induction l with
  | nil => simp at h
  | cons q rest ih =>
      by_cases hq : q.id = peerId
      · refine ⟨{ q with name := name, isReady := false }, ?_, hq, rfl, rfl⟩
        simp [joinUpdate, hq]
      · simp only [List.any_cons, Bool.or_eq_true, beq_iff_eq] at h
        rcases h with h | h
        · exact absurd h hq
        · obtain ⟨p, hp, hprop⟩ := ih h
          exact ⟨p, by simp [joinUpdate, hq, hp], hprop⟩

/-- C5 counterexample: with the lobby already at the capacity of 8 and the
phase LOBBY, a connecting peer is answered with an ERROR, yet its
PLAYER_JOIN message still appends a ninth roster entry — the rejection does
not prevent the state mutation. -/
theorem join_when_full_still_adds_cex :
    (processJoinAttempt eightPlayers Phase.LOBBY ['9'] ['N']).errorSent = true ∧
    (processJoinAttempt eightPlayers Phase.LOBBY ['9'] ['N']).players.length = 9 := by
  constructor
  · decide
  · decide

/-- C5 amended: the ERROR unicast happens in the connection handler, and
fires exactly when the roster is full or the phase is ANSWERING, VOTING or
RESULTS (a GAME_OVER join is not rejected, although GAME_OVER is neither
LOBBY nor HOME); the PLAYER_JOIN handler itself performs no capacity or
phase check — it always appends a fresh entry for a new id, or updates the
name and resets the ready flag of an existing id without duplicating. -/
theorem join_attempt_behaviour (players : List Player) (phase : Phase)
    (peerId name : JStr) :
    ((processJoinAttempt players phase peerId name).errorSent = true ↔
      (players.length ≥ MAX_PLAYERS ∨ phase = Phase.ANSWERING ∨
        phase = Phase.VOTING ∨ phase = Phase.RESULTS)) ∧
    (players.any (fun p => p.id == peerId) = false →
      (processJoinAttempt players phase peerId name).players = players ++
        [{ id := peerId, name := name, isReady := false, isHost := false,
           score := 0 }]) ∧
    (players.any (fun p => p.id == peerId) = true →
      (processJoinAttempt players phase peerId name).players.length
          = players.length ∧
        ∃ p ∈ (processJoinAttempt players phase peerId name).players,
          p.id = peerId ∧ p.name = name ∧ p.isReady = false) := by
  refine ⟨?_, ?_, ?_⟩
  · by_cases hfull : players.length ≥ MAX_PLAYERS
    · simp [processJoinAttempt, onConnection, hfull]
    · cases phase <;>
        simp [processJoinAttempt, onConnection, isPlaying, hfull]
  · intro h
    simp [processJoinAttempt, handlePlayerJoin, h]
  · intro h
    refine ⟨?_, ?_⟩
    · simp [processJoinAttempt, handlePlayerJoin, h, joinUpdate_length]
    · have := joinUpdate_mem players peerId name h
      simpa [processJoinAttempt, handlePlayerJoin, h] using this

/-- C7: whenever some letter of the 23-letter alphabet is still unused,
`selectLetter` returns an unused alphabet letter; when every alphabet letter
has been used it still returns an alphabet letter instead of failing. The
random pick is any function returning an element of a non-empty list. -/
theorem selectLetter_avoids_used (used : List Char) (choose : List Char → Char)
    (hchoose : ∀ l : List Char, l ≠ [] → choose l ∈ l) :
    selectLetter used choose ∈ AVAILABLE_LETTERS ∧
    ((∃ c ∈ AVAILABLE_LETTERS, c ∉ used) → selectLetter used choose ∉ used) := by
  by_cases hav : AVAILABLE_LETTERS.filter (fun l => !used.contains l) = []
  · constructor
    · simp only [selectLetter, hav, List.isEmpty_nil, if_true]
      exact hchoose _ (by decide)
    · rintro ⟨c, hc, hcu⟩
      exfalso
      have : c ∈ AVAILABLE_LETTERS.filter (fun l => !used.contains l) := by
        simp [List.mem_filter, hc, hcu]
      rw [hav] at this
      simp at this
  · have hmem := hchoose _ hav
    have hsel : selectLetter used choose
        = choose (AVAILABLE_LETTERS.filter (fun l => !used.contains l)) := by
      simp only [selectLetter]
      rw [if_neg (by simpa [List.isEmpty_iff] using hav)]
    rw [hsel]
    constructor
    · exact List.mem_of_mem_filter hmem
    · intro _
      have := List.of_mem_filter hmem
      simpa using this

/-- C7 witness: with one used letter and the head-picking choice function,
the selected letter is an unused alphabet letter. -/
theorem selectLetter_avoids_used_witness :
    selectLetter ['A'] chooseHead ∈ AVAILABLE_LETTERS ∧
    selectLetter ['A'] chooseHead ∉ (['A'] : List Char) :=
  have h := selectLetter_avoids_used ['A'] chooseHead (fun l hl => by
    cases l with
    | nil => exact absurd rfl hl
    | cons a t => simp [chooseHead])
  ⟨h.1, h.2 ⟨'B', by decide, by decide⟩⟩

/-- `addScore` keeps every stored score positive: it only ever adds a
strictly positive point total, to a present entry or to the default 0. -/
theorem addScore_preserves_pos (sc : JStr → Option Nat) (pid : JStr) (pts : Nat)
    (h : ∀ q m, sc q = some m → 0 < m) :
    ∀ q m, addScore sc pid pts q = some m → 0 < m := by
  intro q m hm
  unfold addScore at hm
  by_cases hp : pts > 0
  · rw [if_pos hp] at hm
    by_cases hq : q = pid
    · rw [if_pos hq] at hm
      obtain rfl : (sc pid).getD 0 + pts = m := by exact Option.some.inj hm
      omega
    · rw [if_neg hq] at hm
      exact h q m hm
  · rw [if_neg hp] at hm
    exact h q m hm

/-- Accumulating any entry list keeps every stored score positive. -/
theorem accumulateScores_preserves_pos (entries : List AnswerResult) :
    ∀ sc : JStr → Option Nat, (∀ q m, sc q = some m → 0 < m) →
      ∀ q m, accumulateScores sc entries q = some m → 0 < m := by
  induction entries with
  | nil => intro sc h; exact h
  | cons e t ih =>
      intro sc h
      exact ih _ (addScore_preserves_pos sc e.playerId e.points h)

/-- The category fold keeps every stored score positive. -/
theorem roundResultsFold_preserves_pos (answers : AnswersMap) (votes : Votes)
    (letter : Char) (l : List (Nat × JStr)) :
    ∀ acc : List CategoryResult × (JStr → Option Nat),
      (∀ q m, acc.2 q = some m → 0 < m) →
      ∀ q m, (l.foldl (roundResultsStep answers votes letter) acc).2 q = some m
        → 0 < m := by
  induction l with
  | nil => intro acc h; exact h
  | cons ic t ih =>
      intro acc h
      exact ih _ (accumulateScores_preserves_pos _ acc.2 h)

/-- C9: every player present as a key of `playerScores` maps to a strictly
positive round score — a player whose answers all earned 0 points is simply
absent, so presence implies at least one point this round. -/
theorem playerScores_entries_positive (answers : AnswersMap) (votes : Votes)
    (categories : List JStr) (letter : Char) (pid : JStr) (n : Nat)
    (h : (calculateRoundResults answers votes categories letter).playerScores pid
      = some n) :
    0 < n := by
  simp only [calculateRoundResults] at h
  exact roundResultsFold_preserves_pos answers votes letter categories.enum
    ([], fun _ => none) (by intro q m hm; simp at hm) pid n h

/-- C9 witness: one player whose unique valid upvoted answer earns 2 points
appears in `playerScores` with the positive value 2. -/
theorem playerScores_entries_positive_witness :
    (calculateRoundResults answersOne votesOne [['a']] 'C').playerScores
        ['p', '1'] = some 2 ∧ 0 < 2 :=
  ⟨by decide,
   playerScores_entries_positive answersOne votesOne [['a']] 'C' ['p', '1'] 2
     (by decide)⟩

/-- The category results are, in order, the categories paired with their
sorted per-category entry lists. -/
theorem roundResultsFold_fst (answers : AnswersMap) (votes : Votes)
    (letter : Char) (l : List (Nat × JStr)) :
    ∀ acc : List CategoryResult × (JStr → Option Nat),
      (l.foldl (roundResultsStep answers votes letter) acc).1
        = acc.1 ++ l.map (fun ic =>
            { category := ic.2
              answers := (categoryAnswersFor answers votes letter ic.1).mergeSort
                answerLE }) := by
  induction l with
  | nil => intro acc; simp
  | cons ic t ih =>
      intro acc
      rw [List.foldl_cons, ih]
      simp [roundResultsStep]

/-- `calculateRoundResults` in closed form on the category side. -/
theorem calculateRoundResults_categoryResults (answers : AnswersMap)
    (votes : Votes) (categories : List JStr) (letter : Char) :
    (calculateRoundResults answers votes categories letter).categoryResults
      = categories.enum.map (fun ic =>
          { category := ic.2
            answers := (categoryAnswersFor answers votes letter ic.1).mergeSort
              answerLE }) := by
  simp [calculateRoundResults, roundResultsFold_fst]

/-- C10: in `calculateRoundResults` the votes for an entry are looked up in
`votes[categoryIndex]` under the raw (trimmed) answer text of the entry —
the net votes of every produced entry equal `calculateNetVotes` of the vote record
stored under exactly `entry.answer`, not under its normalized form. -/
theorem votes_looked_up_under_raw_text (answers : AnswersMap) (votes : Votes)
    (categories : List JStr) (letter : Char) (i : Nat) (cr : CategoryResult)
    (h : (calculateRoundResults answers votes categories letter).categoryResults[i]?
      = some cr) :
    ∀ e ∈ cr.answers,
      e.netVotes = calculateNetVotes ((votes i e.answer).getD AnswerVotes.empty)
        ∧ e.normalized = normalizeAnswer e.answer := by
  rw [calculateRoundResults_categoryResults, List.getElem?_map,
    List.getElem?_enum] at h
  intro e he
  obtain ⟨cat, hcat, rfl⟩ := Option.map_eq_some'.mp (by
    simpa [Option.map_map] using h)
  simp only [List.mem_mergeSort] at he
  simp only [categoryAnswersFor, List.mem_map] at he
  obtain ⟨pa, _, rfl⟩ := he
  exact ⟨rfl, rfl⟩

/-- C10 witness: `"Cat"` and `"cat"` normalize identically but carry
independent vote tallies — the upvote recorded under `"Cat"` gives that
entry net votes 1, validity and 1 point, while the `"cat"` entry has net
votes 0, is invalid and scores nothing, within the same category. -/
theorem votes_looked_up_under_raw_text_witness :
    (∀ e ∈ ({ category := ['a']
              answers := (categoryAnswersFor answersTwo votesTwo 'C' 0).mergeSort
                answerLE } : CategoryResult).answers,
      e.netVotes = calculateNetVotes ((votesTwo 0 e.answer).getD AnswerVotes.empty)
        ∧ e.normalized = normalizeAnswer e.answer) ∧
    ({ playerId := ['p', '1'], answer := ['C', 'a', 't'],
       normalized := ['c', 'a', 't'], netVotes := 1, isValid := true,
       isUnique := false, points := 1, startsCorrect := true } : AnswerResult)
      ∈ categoryAnswersFor answersTwo votesTwo 'C' 0 ∧
    ({ playerId := ['p', '2'], answer := ['c', 'a', 't'],
       normalized := ['c', 'a', 't'], netVotes := 0, isValid := false,
       isUnique := false, points := 0, startsCorrect := true } : AnswerResult)
      ∈ categoryAnswersFor answersTwo votesTwo 'C' 0 ∧
    (calculateRoundResults answersTwo votesTwo [['a']] 'C').playerScores
        ['p', '1'] = some 1 ∧
    (calculateRoundResults answersTwo votesTwo [['a']] 'C').playerScores
        ['p', '2'] = none :=
  ⟨votes_looked_up_under_raw_text answersTwo votesTwo [['a']] 'C' 0 _ rfl,
   by decide, by decide, by decide, by decide⟩

/-- Membership in a list filtered by "not this voter". -/
theorem mem_filter_ne (l : List JStr) (x y : JStr) :
    x ∈ l.filter (fun id => id ≠ y) ↔ x ∈ l ∧ x ≠ y := by
  simp [List.mem_filter]

/-- Processing one more VOTE message folds one `handleVote` on the right. -/
theorem applyVotes_append (es : List VoteEvent) (e : VoteEvent) :
    applyVotes (es ++ [e])
      = handleVote (applyVotes es) e.playerId e.categoryIndex e.answer
          e.voteType := by
  simp [applyVotes, List.foldl_append]

/-- The last vote of a voter after one more message: the new message wins
when it is by this voter for this key, otherwise nothing changes. -/
theorem lastVoteType_append (es : List VoteEvent) (e : VoteEvent) (pid : JStr)
    (ci : Nat) (ans : JStr) :
    lastVoteType (es ++ [e]) pid ci ans =
      if e.playerId = pid ∧ e.categoryIndex = ci ∧ e.answer = ans then
        some e.voteType
      else lastVoteType es pid ci ans := by
  unfold lastVoteType
  rw [List.filter_append]
  by_cases h : e.playerId = pid ∧ e.categoryIndex = ci ∧ e.answer = ans
  · rw [if_pos h]
    have hc : (e.playerId == pid && e.categoryIndex == ci && e.answer == ans)
        = true := by
      simp [h.1, h.2.1, h.2.2]
    simp only [List.filter_cons, List.filter_nil]
    rw [if_pos hc, List.getLast?_concat]
    rfl
  · rw [if_neg h]
    have hc : ¬((e.playerId == pid && e.categoryIndex == ci && e.answer == ans)
        = true) := by
      intro hb
      simp only [Bool.and_eq_true, beq_iff_eq] at hb
      exact h ⟨hb.1.1, hb.1.2, hb.2⟩
    simp only [List.filter_cons, List.filter_nil]
    rw [if_neg hc, List.append_nil]

/-- `handleVote` with vote type `up` at the written key: the voter is removed
from both lists, then appended to the upvote list. -/
theorem handleVote_at_key_up (v : Votes) (p : JStr) (cik : Nat) (ansk : JStr) :
    handleVote v p cik ansk voteUp cik ansk =
      some { upvotes :=
               ((v cik ansk).getD AnswerVotes.empty).upvotes.filter
                 (fun id => id ≠ p) ++ [p]
             downvotes :=
               ((v cik ansk).getD AnswerVotes.empty).downvotes.filter
                 (fun id => id ≠ p) } := by
  simp [handleVote]

/-- `handleVote` with vote type `down` at the written key. -/
theorem handleVote_at_key_down (v : Votes) (p : JStr) (cik : Nat) (ansk : JStr) :
    handleVote v p cik ansk voteDown cik ansk =
      some { upvotes :=
               ((v cik ansk).getD AnswerVotes.empty).upvotes.filter
                 (fun id => id ≠ p)
             downvotes :=
               ((v cik ansk).getD AnswerVotes.empty).downvotes.filter
                 (fun id => id ≠ p) ++ [p] } := by
  simp [handleVote]
  decide

/-- `handleVote` with any other vote type (in particular `none`) at the
written key: pure removal. -/
theorem handleVote_at_key_other (v : Votes) (p : JStr) (cik : Nat)
    (ansk t : JStr) (h1 : t ≠ voteUp) (h2 : t ≠ voteDown) :
    handleVote v p cik ansk t cik ansk =
      some { upvotes :=
               ((v cik ansk).getD AnswerVotes.empty).upvotes.filter
                 (fun id => id ≠ p)
             downvotes :=
               ((v cik ansk).getD AnswerVotes.empty).downvotes.filter
                 (fun id => id ≠ p) } := by
  simp [handleVote, h1, h2]

/-- `handleVote` leaves every other key untouched. -/
theorem handleVote_at_other (v : Votes) (p : JStr) (cik : Nat) (ansk t : JStr)
    (ci : Nat) (ans : JStr) (h : ¬(ci = cik ∧ ans = ansk)) :
    handleVote v p cik ansk t ci ans = v ci ans := by
  simp only [handleVote]
  rw [if_neg h]

/-- A voter is in the upvote (resp. downvote) list of an answer exactly when
the last VOTE message it sent for that answer was `up` (resp. `down`). -/
theorem applyVotes_mem (events : List VoteEvent) (ci : Nat) (ans pid : JStr) :
    (pid ∈ ((applyVotes events ci ans).getD AnswerVotes.empty).upvotes
      ↔ lastVoteType events pid ci ans = some voteUp) ∧
    (pid ∈ ((applyVotes events ci ans).getD AnswerVotes.empty).downvotes
      ↔ lastVoteType events pid ci ans = some voteDown) := by
  induction events using List.reverseRecOn with
  | nil => simp [applyVotes, initVotes, lastVoteType, AnswerVotes.empty]
  | append_singleton es e ih =>
      rw [applyVotes_append, lastVoteType_append]
      by_cases hkey : ci = e.categoryIndex ∧ ans = e.answer
      · obtain ⟨hci, hans⟩ := hkey
        subst hci; subst hans
        by_cases hpid : e.playerId = pid
        · subst hpid
          rw [if_pos ⟨rfl, rfl, rfl⟩]
          by_cases h1 : e.voteType = voteUp
          · rw [h1, handleVote_at_key_up, Option.getD_some]
            constructor
            · simp [mem_filter_ne]
            · simp only [mem_filter_ne]
              constructor
              · intro hmem
                exact absurd hmem.2 (by simp)
              · intro hcon
                exact absurd (Option.some.inj hcon) (by decide)
          · by_cases h2 : e.voteType = voteDown
            · rw [h2, handleVote_at_key_down, Option.getD_some]
              constructor
              · simp only [mem_filter_ne]
                constructor
                · intro hmem
                  exact absurd hmem.2 (by simp)
                · intro hcon
                  exact absurd (Option.some.inj hcon) (by decide)
              · simp [mem_filter_ne]
            · rw [handleVote_at_key_other _ _ _ _ _ h1 h2, Option.getD_some]
              constructor
              · simp only [mem_filter_ne]
                constructor
                · intro hmem
                  exact absurd hmem.2 (by simp)
                · intro hcon
                  exact absurd (Option.some.inj hcon) h1
              · simp only [mem_filter_ne]
                constructor
                · intro hmem
                  exact absurd hmem.2 (by simp)
                · intro hcon
                  exact absurd (Option.some.inj hcon) h2
        · rw [if_neg (fun hcon => hpid hcon.1)]
          have hne : pid ≠ e.playerId := fun hc => hpid hc.symm
          have hpe : pid ∉ [e.playerId] := by simp [hne]
          by_cases h1 : e.voteType = voteUp
          · rw [h1, handleVote_at_key_up, Option.getD_some]
            constructor
            · simp only [List.mem_append, mem_filter_ne]
              rw [← ih.1]
              constructor
              · rintro (⟨hm, _⟩ | hm)
                · exact hm
                · exact absurd hm hpe
              · intro hm
                exact Or.inl ⟨hm, hne⟩
            · simp only [mem_filter_ne]
              rw [← ih.2]
              exact ⟨fun h => h.1, fun h => ⟨h, hne⟩⟩
          · by_cases h2 : e.voteType = voteDown
            · rw [h2, handleVote_at_key_down, Option.getD_some]
              constructor
              · simp only [mem_filter_ne]
                rw [← ih.1]
                exact ⟨fun h => h.1, fun h => ⟨h, hne⟩⟩
              · simp only [List.mem_append, mem_filter_ne]
                rw [← ih.2]
                constructor
                · rintro (⟨hm, _⟩ | hm)
                  · exact hm
                  · exact absurd hm hpe
                · intro hm
                  exact Or.inl ⟨hm, hne⟩
            · rw [handleVote_at_key_other _ _ _ _ _ h1 h2, Option.getD_some]
              constructor
              · simp only [mem_filter_ne]
                rw [← ih.1]
                exact ⟨fun h => h.1, fun h => ⟨h, hne⟩⟩
              · simp only [mem_filter_ne]
                rw [← ih.2]
                exact ⟨fun h => h.1, fun h => ⟨h, hne⟩⟩
      · rw [handleVote_at_other _ _ _ _ _ _ _ hkey]
        rw [if_neg (fun hcon => hkey ⟨hcon.2.1.symm, hcon.2.2.symm⟩)]
        exact ih

/-- A voter occurs at most once across the two vote lists of an answer. -/
theorem applyVotes_count (events : List VoteEvent) (ci : Nat) (ans pid : JStr) :
    ((applyVotes events ci ans).getD AnswerVotes.empty).upvotes.count pid
      + ((applyVotes events ci ans).getD AnswerVotes.empty).downvotes.count pid
      ≤ 1 := by
  induction events using List.reverseRecOn with
  | nil => simp [applyVotes, initVotes, AnswerVotes.empty]
  | append_singleton es e ih =>
      rw [applyVotes_append]
      by_cases hkey : ci = e.categoryIndex ∧ ans = e.answer
      · obtain ⟨hci, hans⟩ := hkey
        subst hci; subst hans
        by_cases hpid : pid = e.playerId
        · subst hpid
          by_cases h1 : e.voteType = voteUp
          · rw [h1, handleVote_at_key_up, Option.getD_some]
            rw [List.count_append, count_filter_ne_self, count_filter_ne_self]
            simp
          · by_cases h2 : e.voteType = voteDown
            · rw [h2, handleVote_at_key_down, Option.getD_some]
              rw [List.count_append, count_filter_ne_self,
                count_filter_ne_self]
              simp
            · rw [handleVote_at_key_other _ _ _ _ _ h1 h2, Option.getD_some]
              rw [count_filter_ne_self, count_filter_ne_self]
              simp
        · have hup := count_filter_ne_of_ne
            (((applyVotes es e.categoryIndex e.answer).getD
              AnswerVotes.empty).upvotes) pid e.playerId hpid
          have hdown := count_filter_ne_of_ne
            (((applyVotes es e.categoryIndex e.answer).getD
              AnswerVotes.empty).downvotes) pid e.playerId hpid
          have hsingle : List.count pid [e.playerId] = 0 := by
            rw [List.count_eq_zero]
            intro hm
            exact hpid (List.mem_singleton.mp hm)
          by_cases h1 : e.voteType = voteUp
          · rw [h1, handleVote_at_key_up, Option.getD_some]
            simp only [List.count_append, hup, hdown, hsingle]
            simpa using ih
          · by_cases h2 : e.voteType = voteDown
            · rw [h2, handleVote_at_key_down, Option.getD_some]
              simp only [List.count_append, hup, hdown, hsingle]
              simpa using ih
            · rw [handleVote_at_key_other _ _ _ _ _ h1 h2, Option.getD_some]
              simp only [hup, hdown]
              exact ih
      · rw [handleVote_at_other _ _ _ _ _ _ _ hkey]
        exact ih

/-- C2: after any sequence of VOTE messages processed from the empty votes
state, each voter occurs at most once across the upvote and downvote lists
of any (categoryIndex, answer); the last vote of the voter for that answer
determines membership — `up` puts it only in upvotes, `down` only in
downvotes, anything else (in particular `none`) in neither, regardless of
interleaving with messages of other voters. -/
theorem handleVote_last_write_wins (events : List VoteEvent) (ci : Nat)
    (ans pid : JStr) :
    (((applyVotes events ci ans).getD AnswerVotes.empty).upvotes.count pid
      + ((applyVotes events ci ans).getD AnswerVotes.empty).downvotes.count pid
      ≤ 1) ∧
    (match lastVoteType events pid ci ans with
     | some t =>
        (pid ∈ ((applyVotes events ci ans).getD AnswerVotes.empty).upvotes
          ↔ t = voteUp) ∧
        (pid ∈ ((applyVotes events ci ans).getD AnswerVotes.empty).downvotes
          ↔ t = voteDown)
     | none =>
        pid ∉ ((applyVotes events ci ans).getD AnswerVotes.empty).upvotes ∧
        pid ∉ ((applyVotes events ci ans).getD AnswerVotes.empty).downvotes) := by
  refine ⟨applyVotes_count events ci ans pid, ?_⟩
  have hmem := applyVotes_mem events ci ans pid
  cases hlast : lastVoteType events pid ci ans with
  | none =>
      constructor
      · intro hc
        have := (hmem.1.mp hc)
        rw [hlast] at this
        exact Option.noConfusion this
      · intro hc
        have := (hmem.2.mp hc)
        rw [hlast] at this
        exact Option.noConfusion this
  | some t =>
      rw [hlast] at hmem
      constructor
      · rw [hmem.1]
        exact ⟨fun h => Option.some.inj h, fun h => by rw [h]⟩
      · rw [hmem.2]
        exact ⟨fun h => Option.some.inj h, fun h => by rw [h]⟩

/-- `Char.ofNat` on a valid codepoint round-trips through `toNat`. -/
theorem toNat_ofNat_valid (n : Nat) (h : n.isValidChar) :
    (Char.ofNat n).toNat = n := by
  rw [Char.ofNat, dif_pos h]
  rfl

/-- Lowercasing a character twice equals lowercasing it once. -/
theorem toLower_idem (c : Char) :
    Char.toLower (Char.toLower c) = Char.toLower c := by
  unfold Char.toLower
  by_cases h : c.toNat ≥ 65 ∧ c.toNat ≤ 90
  · rw [if_pos h]
    have hv : (c.toNat + 32).isValidChar := Or.inl (by omega)
    rw [toNat_ofNat_valid _ hv, if_neg (by omega)]
  · rw [if_neg h, if_neg h]

/-- Dropping from the front after dropping from the back equals dropping
from the back after dropping from the front. -/
theorem dropWhile_rdropWhile (p : Char → Bool) (u : List Char) :
    (u.rdropWhile p).dropWhile p = (u.dropWhile p).rdropWhile p := by
  induction u using List.reverseRecOn with
  | nil => simp
  | append_singleton l x ih =>
      by_cases hx : p x
      · rw [List.rdropWhile_concat_pos _ _ x hx, ih, List.dropWhile_append]
        by_cases hl : (l.dropWhile p).isEmpty
        · rw [if_pos hl]
          rw [List.isEmpty_iff] at hl
          rw [hl, List.dropWhile_cons_of_pos hx, List.dropWhile_nil]
        · rw [if_neg hl, List.rdropWhile_concat_pos _ _ x hx]
      · rw [List.rdropWhile_concat_neg _ _ x hx, List.dropWhile_append]
        by_cases hl : (l.dropWhile p).isEmpty
        · rw [if_pos hl]
          rw [List.dropWhile_cons_of_neg hx, List.rdropWhile_singleton,
            if_neg hx]
        · rw [if_neg hl, List.rdropWhile_concat_neg _ _ x hx]

/-- JavaScript `trim` is idempotent. -/
theorem jsTrim_idem (s : JStr) : jsTrim (jsTrim s) = jsTrim s := by
  unfold jsTrim
  rw [dropWhile_rdropWhile, List.dropWhile_idempotent, List.rdropWhile_idempotent]

/-- Trimming only removes characters. -/
theorem jsTrim_subset (s : JStr) : ∀ c ∈ jsTrim s, c ∈ s := by
  intro c hc
  unfold jsTrim at hc
  have hpre := List.rdropWhile_prefix isSpaceChar (List.dropWhile isSpaceChar s)
  have h1 : c ∈ List.dropWhile isSpaceChar s := hpre.sublist.subset hc
  exact List.dropWhile_subset _ h1

/-- Stripping a determiner only removes characters. -/
theorem stripDeterminer_subset (s : JStr) : ∀ c ∈ stripDeterminer s, c ∈ s := by
  intro c hc
  unfold stripDeterminer at hc
  split_ifs at hc with h1 h2 h3
  · exact List.drop_subset _ _ hc
  · exact List.drop_subset _ _ hc
  · exact List.drop_subset _ _ hc
  · exact hc

/-- A map that fixes every element of a list fixes the list. -/
theorem map_fixed_of_forall (l : List Char) (f : Char → Char)
    (h : ∀ c ∈ l, f c = c) : l.map f = l := by
  induction l with
  | nil => rfl
  | cons a t ih =>
      simp only [List.map_cons]
      rw [h a (by simp), ih (fun x hx => h x (by simp [hx]))]

/-- Every character of a normalized answer is already lowercase. -/
theorem normalizeAnswer_chars_lowered (s : JStr) :
    ∀ c ∈ normalizeAnswer s, Char.toLower c = c := by
  intro c hc
  unfold normalizeAnswer at hc
  by_cases hs : s = []
  · simp [hs] at hc
  · rw [if_neg hs] at hc
    have h1 : c ∈ stripDeterminer (jsTrim (jsToLower s)) := jsTrim_subset _ c hc
    have h2 : c ∈ jsTrim (jsToLower s) := stripDeterminer_subset _ c h1
    have h3 : c ∈ jsToLower s := jsTrim_subset _ c h2
    unfold jsToLower at h3
    obtain ⟨d, _, rfl⟩ := List.mem_map.mp h3
    exact toLower_idem d

/-- C6 counterexample: `normalizeAnswer` strips only ONE leading determiner
(the loop breaks after the first match), so on `"a a cat"` one application
yields `"a cat"` while a second application yields `"cat"` — the output is
not a fixed point and idempotence fails. -/
theorem normalizeAnswer_not_idempotent_cex :
    normalizeAnswer ['a', ' ', 'a', ' ', 'c', 'a', 't'] = ['a', ' ', 'c', 'a', 't'] ∧
    normalizeAnswer ['a', ' ', 'c', 'a', 't'] = ['c', 'a', 't'] ∧
    (['a', ' ', 'c', 'a', 't'] : JStr) ≠ ['c', 'a', 't'] :=
  ⟨by decide, by decide, by decide⟩

/-- C6 amended: an output of `normalizeAnswer` is a fixed point whenever it
does not itself start with another determiner token (`"a "`, `"an "`,
`"the "`); inputs with stacked determiners such as `"a a cat"` lose only one
determiner per application, so for them idempotence fails. -/
theorem normalizeAnswer_idempotent_on_stripped (s : JStr)
    (h : stripDeterminer (normalizeAnswer s) = normalizeAnswer s) :
    normalizeAnswer (normalizeAnswer s) = normalizeAnswer s := by
  by_cases hy : normalizeAnswer s = []
  · rw [hy]
    simp [normalizeAnswer]
  · have hs : s ≠ [] := by
      intro hse
      exact hy (by simp [normalizeAnswer, hse])
    have hlow : jsToLower (normalizeAnswer s) = normalizeAnswer s :=
      map_fixed_of_forall _ _ (normalizeAnswer_chars_lowered s)
    have hform : normalizeAnswer s
        = jsTrim (stripDeterminer (jsTrim (jsToLower s))) := by
      rw [normalizeAnswer, if_neg hs]
    have htrim : jsTrim (normalizeAnswer s) = normalizeAnswer s := by
      conv_lhs => rw [hform, jsTrim_idem]
      rw [hform]
    conv_lhs => rw [normalizeAnswer, if_neg hy, hlow, htrim, h, htrim]

/-- C6 witness: on `"the Cat"` the normalized form `"cat"` has no leading
determiner left, and a second application indeed changes nothing. -/
theorem normalizeAnswer_idempotent_on_stripped_witness :
    normalizeAnswer (normalizeAnswer ['t', 'h', 'e', ' ', 'C', 'a', 't'])
      = normalizeAnswer ['t', 'h', 'e', ' ', 'C', 'a', 't'] :=
  normalizeAnswer_idempotent_on_stripped ['t', 'h', 'e', ' ', 'C', 'a', 't']
    (by decide)

end Scattergories
